import Mathlib

/-!
Verification development for the Tropimon capture-statistics service
(src/tropimon_service.py).

The Python module ingests creature-capture logs in two JSON formats into a
relational store (players, species, captures) after a full reset, and serves
read-only aggregate queries.  This file embeds the data model, the ingestion
pipeline and the aggregation queries as executable Lean definitions, and
proves or refutes the specified properties about them.

Modelling conventions:
- SQLAlchemy rows become structures; the session plus the in-run dedupe
  caches become a single DB value threaded through the record loop.  After
  the initial reset the tables start empty, so the cache contents and the
  pending table contents coincide and are modelled by one list per table.
- JSON field access entry.get(k) becomes an Option field; entry.get(k, d)
  becomes Option.getD d.  Python string falsiness (None or empty) is tested
  with Option.getD followed by String.isEmpty.
- The filesystem seen by update_database_from_logs is a value: the log root
  may be missing (os.listdir then raises, modelled as Except.error), each
  expected file may be absent, unparseable, or good.
- SQL queries become list operations: COUNT is List.length, WHERE is
  List.filter, JOIN is a flatMap producing row pairs, GROUP BY with COUNT is
  dedup plus count (group order: as produced by List.dedup, standing for the
  implementation-defined grouping order), ORDER BY count DESC is a stable
  mergeSort, LIMIT is List.take.
-/

namespace Tropimon

/-! ## SHA-256 (hashlib.sha256, pure re-implementation on Nat bytes/words) -/

/-- Word modulus: 2 ^ 32. -/
def M32 : Nat := 4294967296

/-- Rotate a 32-bit word right by n bits. -/
def rotr32 (n x : Nat) : Nat := ((x >>> n) ||| (x <<< (32 - n))) % M32

/-- The eight 32-bit state words of a SHA-256 hash value. -/
structure Sha256Hash where
  w0 : Nat
  w1 : Nat
  w2 : Nat
  w3 : Nat
  w4 : Nat
  w5 : Nat
  w6 : Nat
  w7 : Nat
  deriving DecidableEq

/-- SHA-256 round constants, written in decimal. -/
def sha256_k : Array Nat := #[
  1116352408, 1899447441, 3049323471, 3921009573, 961987163,
  1508970993, 2453635748, 2870763221, 3624381080, 310598401,
  607225278, 1426881987, 1925078388, 2162078206, 2614888103,
  3248222580, 3835390401, 4022224774, 264347078, 604807628,
  770255983, 1249150122, 1555081692, 1996064986, 2554220882,
  2821834349, 2952996808, 3210313671, 3336571891, 3584528711,
  113926993, 338241895, 666307205, 773529912, 1294757372,
  1396182291, 1695183700, 1986661051, 2177026350, 2456956037,
  2730485921, 2820302411, 3259730800, 3345764771, 3516065817,
  3600352804, 4094571909, 275423344, 430227734, 506948616,
  659060556, 883997877, 958139571, 1322822218, 1537002063,
  1747873779, 1955562222, 2024104815, 2227730452, 2361852424,
  2428436474, 2756734187, 3204031479, 3329325298]

/-- Initial SHA-256 hash state, in decimal. -/
def sha256_init : Sha256Hash :=
  ⟨1779033703, 3144134277, 1013904242, 2773480762,
   1359893119, 2600822924, 528734635, 1541459225⟩

/-- Extend the 16 words of a message block to the 64-word message schedule. -/
def sha256_schedule (block : List Nat) : Array Nat :=
  (List.range 48).foldl (fun w _ =>
    let n := w.size
    let x15 := w[n - 15]!
    let x2 := w[n - 2]!
    let s0 := (rotr32 7 x15) ^^^ ((rotr32 18 x15) ^^^ (x15 >>> 3))
    let s1 := (rotr32 17 x2) ^^^ ((rotr32 19 x2) ^^^ (x2 >>> 10))
    w.push ((w[n - 16]! + s0 + w[n - 7]! + s1) % M32)) block.toArray

/-- One SHA-256 compression round over a 16-word message block. -/
def sha256_compress (h : Sha256Hash) (block : List Nat) : Sha256Hash :=
  let w := sha256_schedule block
  let fin := (List.range 64).foldl
    (fun (st : Nat × Nat × Nat × Nat × Nat × Nat × Nat × Nat) i =>
      let (a, b, c, d, e, f, g, hh) := st
      let s1 := (rotr32 6 e) ^^^ ((rotr32 11 e) ^^^ (rotr32 25 e))
      let ch := (e &&& f) ^^^ ((e ^^^ 4294967295) &&& g)
      let t1 := (hh + s1 + ch + sha256_k[i]! + w[i]!) % M32
      let s0 := (rotr32 2 a) ^^^ ((rotr32 13 a) ^^^ (rotr32 22 a))
      let maj := (a &&& b) ^^^ ((a &&& c) ^^^ (b &&& c))
      let t2 := (s0 + maj) % M32
      ((t1 + t2) % M32, a, b, c, (d + t1) % M32, e, f, g))
    (h.w0, h.w1, h.w2, h.w3, h.w4, h.w5, h.w6, h.w7)
  let (a, b, c, d, e, f, g, hh) := fin
  ⟨(h.w0 + a) % M32, (h.w1 + b) % M32, (h.w2 + c) % M32, (h.w3 + d) % M32,
   (h.w4 + e) % M32, (h.w5 + f) % M32, (h.w6 + g) % M32, (h.w7 + hh) % M32⟩

/-- SHA-256 padding: append 0x80, zero bytes, and the 64-bit big-endian bit length. -/
def sha256_pad (msg : List Nat) : List Nat :=
  let bitLen := msg.length * 8
  let z := (119 - msg.length % 64) % 64
  msg ++ 128 :: (List.replicate z 0 ++
    [(bitLen >>> 56) % 256, (bitLen >>> 48) % 256, (bitLen >>> 40) % 256, (bitLen >>> 32) % 256,
     (bitLen >>> 24) % 256, (bitLen >>> 16) % 256, (bitLen >>> 8) % 256, bitLen % 256])

/-- Split a padded byte list into 64-byte chunks. -/
def chunks64 : List Nat → List (List Nat)
  | [] => []
  | x :: rest => (x :: rest).take 64 :: chunks64 (rest.drop 63)
termination_by l => l.length
decreasing_by simp [List.length_drop]; omega

/-- Combine bytes into big-endian 32-bit words, four at a time. -/
def beWords : List Nat → List Nat
  | b0 :: b1 :: b2 :: b3 :: rest =>
      (((b0 * 256 + b1) * 256 + b2) * 256 + b3) :: beWords rest
  | _ => []

/-- SHA-256 of a byte list. -/
def sha256_bytes (msg : List Nat) : Sha256Hash :=
  (chunks64 (sha256_pad msg)).foldl (fun h b => sha256_compress h (beWords b)) sha256_init

/-- Lowercase hexadecimal digit for a value below 16. -/
def hexChar (n : Nat) : Char := if n < 10 then Char.ofNat (48 + n) else Char.ofNat (87 + n)

/-- Eight lowercase hex digits of a 32-bit word, most significant first. -/
def hex8 (x : Nat) : List Char :=
  [hexChar ((x >>> 28) % 16), hexChar ((x >>> 24) % 16), hexChar ((x >>> 20) % 16),
   hexChar ((x >>> 16) % 16), hexChar ((x >>> 12) % 16), hexChar ((x >>> 8) % 16),
   hexChar ((x >>> 4) % 16), hexChar (x % 16)]

/-- hashlib.sha256(s.encode()).hexdigest(): 64 lowercase hex characters. -/
def sha256_hexdigest (s : String) : String :=
  let h := sha256_bytes (s.toUTF8.toList.map UInt8.toNat)
  ⟨hex8 h.w0 ++ hex8 h.w1 ++ hex8 h.w2 ++ hex8 h.w3 ++
   hex8 h.w4 ++ hex8 h.w5 ++ hex8 h.w6 ++ hex8 h.w7⟩

/-- anonymize_uuid: stable anonymous label for a UUID, from the first four
hexdigest characters upper-cased inside the template "Player #". -/
def anonymize_uuid (uuid : String) : String :=
  let h := ((sha256_hexdigest uuid).take 4).toUpper
  "Player #" ++ h

/-! ## Classification tables (LEGENDARIES / MYTHICALS, verbatim from the source) -/

/-- Legendary species set (kept verbatim, including the zaptos spelling). -/
def LEGENDARIES : List String := [
  "cobblemon:articuno", "cobblemon:zaptos", "cobblemon:moltres",
  "cobblemon:suicune", "cobblemon:entei", "cobblemon:raikou",
  "cobblemon:regigigas", "cobblemon:rayquaza"]

/-- Mythical species set. -/
def MYTHICALS : List String := [
  "cobblemon:mew", "cobblemon:celebi", "cobblemon:jirachi",
  "cobblemon:manaphy", "cobblemon:shaymin", "cobblemon:arceus",
  "cobblemon:victini", "cobblemon:marshadow"]

/-! ## Data model (the SQLAlchemy rows Player, Species, Capture) -/

/-- A row of the players table. -/
structure PlayerRow where
  id : String
  last_seen_timestamp : Option Int
  deriving DecidableEq

/-- A row of the species table. -/
structure SpeciesRow where
  id : String
  is_legendary : Bool
  is_mythical : Bool
  deriving DecidableEq

/-- A row of the captures table. -/
structure CaptureRow where
  id : Nat
  player_id : String
  species_id : String
  timestamp : Int
  is_shiny : Bool
  deriving DecidableEq

/-- The store: the three tables plus the next autoincrement capture id.
During a rebuild the in-run dedupe caches hold exactly the rows added since
the reset, so the pending session rows and the caches are one and the same
list per table. -/
structure DB where
  players : List PlayerRow
  species : List SpeciesRow
  captures : List CaptureRow
  next_capture_id : Nat
  deriving DecidableEq

/-- The store holding no rows at all. -/
def emptyDB : DB := ⟨[], [], [], 1⟩

/-- reset_database: delete all Captures, then all Species, then all Players,
and commit.  After the full delete the SQLite rowid autoincrement restarts
from 1, so the result does not depend on the prior store at all. -/
def reset_database (_db : DB) : DB := ⟨[], [], [], 1⟩

/-! ## Ingestion pipeline -/

/-- The last_seen_timestamp bump applied when a cached player is seen again:
update only when the new timestamp is strictly greater than the current value
coerced with Python or-zero (None becomes 0; a stored 0 also reads as 0). -/
def bumpLastSeen (p : PlayerRow) (ts : Int) : PlayerRow :=
  if ts > p.last_seen_timestamp.getD 0 then { p with last_seen_timestamp := some ts } else p

/-- Shared per-record body of both ingestion loops: look up or create the
Player (with the timestamp bump on lookup), look up or create the Species
(classification flags computed from the tables at creation only), and add a
Capture row linking them. -/
def processRecord (db : DB) (player_uuid species_id : String) (ts : Int) (shiny : Bool) : DB :=
  let players :=
    if db.players.any (fun p => p.id == player_uuid) then
      db.players.map (fun p => if p.id == player_uuid then bumpLastSeen p ts else p)
    else
      db.players ++ [⟨player_uuid, some ts⟩]
  let species :=
    if db.species.any (fun s => s.id == species_id) then
      db.species
    else
      db.species ++ [⟨species_id, LEGENDARIES.contains species_id, MYTHICALS.contains species_id⟩]
  { players := players
    species := species
    captures := db.captures ++ [⟨db.next_capture_id, player_uuid, species_id, ts, shiny⟩]
    next_capture_id := db.next_capture_id + 1 }

/-- One record of the legacy aggregate format: entry.get("pokemon", \x7b\x7d)
yields the nested payload, so an absent pokemon object is the same as both
nested fields being absent. -/
structure OldRecord where
  pokemon_species : Option String
  pokemon_shiny : Option Bool
  captureTimestamp : Option Int
  deriving DecidableEq

/-- Legacy-format loop body for one record under a given player key:
species from the nested payload, timestamp defaulting to 0, shiny defaulting
to false; skip when the species string is missing or empty or the player key
is empty. -/
def processOldRecord (player_uuid : String) (db : DB) (e : OldRecord) : DB :=
  let species_id := e.pokemon_species
  let ts := e.captureTimestamp.getD 0
  let shiny := e.pokemon_shiny.getD false
  if (species_id.getD "").isEmpty || player_uuid.isEmpty then db
  else processRecord db player_uuid (species_id.getD "") ts shiny

/-- One record of the per-player folder format: entry.get("player"),
entry.get("timestamp", 0), and the nested datas payload read with
datas.get("Species", "") and datas.get("Shiny", False). -/
structure NewRecord where
  player : Option String
  timestamp : Option Int
  datas_species : Option String
  datas_shiny : Option Bool
  deriving DecidableEq

/-- Folder-format loop body for one record: skip when the player field is
missing or empty, or the species string is missing or empty. -/
def processNewRecord (db : DB) (e : NewRecord) : DB :=
  let species_id := e.datas_species.getD ""
  let ts := e.timestamp.getD 0
  let shiny := e.datas_shiny.getD false
  if (e.player.getD "").isEmpty || species_id.isEmpty then db
  else processRecord db (e.player.getD "") species_id ts shiny

/-- A source file slot: missing, present but not valid JSON, or parsed. -/
inductive SrcFile (α : Type) where
  | absent : SrcFile α
  | unparseable : SrcFile α
  | good : α → SrcFile α
  deriving DecidableEq

/-- load_old_json_file: a missing or unreadable legacy file contributes
nothing (diagnostic print only); otherwise fold the per-player record lists
in file order. -/
def load_old_json_file (file : SrcFile (List (String × List OldRecord))) (db : DB) : DB :=
  match file with
  | .absent => db
  | .unparseable => db
  | .good data => data.foldl (fun acc pr => pr.2.foldl (processOldRecord pr.1) acc) db

/-- One entry of os.listdir(log_folder): a directory flag and the
POKEMON_CATCH.json slot inside it. -/
structure FolderEntry where
  is_dir : Bool
  catch_file : SrcFile (List NewRecord)
  deriving DecidableEq

/-- The folder loop body: skip non-directories, skip a missing or unreadable
POKEMON_CATCH.json, otherwise fold its records in order. -/
def processFolder (db : DB) (fd : FolderEntry) : DB :=
  if fd.is_dir then
    match fd.catch_file with
    | .absent => db
    | .unparseable => db
    | .good logs => logs.foldl processNewRecord db
  else db

/-- The log root directory: the legacy aggregate file slot and the listdir
entries, in listdir order. -/
structure LogRoot where
  old_file : SrcFile (List (String × List OldRecord))
  entries : List FolderEntry
  deriving DecidableEq

/-- The filesystem as seen by the pipeline: a possibly missing log root. -/
structure LogFolderFS where
  root : Option LogRoot
  deriving DecidableEq

/-- update_database_from_logs: reset the store, load the legacy file, then
walk the per-player folders, committing everything at the end.  When the log
root itself is missing, os.listdir raises an uncaught FileNotFoundError and
the run fails (the reset has already been committed by then). -/
def update_database_from_logs (fs : LogFolderFS) (db : DB) : Except String DB :=
  let db0 := reset_database db
  match fs.root with
  | none => Except.error "FileNotFoundError"
  | some root =>
      let db1 := load_old_json_file root.old_file db0
      Except.ok (root.entries.foldl processFolder db1)

/-! ## Aggregation queries -/

/-- The SQL join of captures with species on Capture.species_id = Species.id,
as the list of joined row pairs. -/
def joinSpecies (db : DB) : List (CaptureRow × SpeciesRow) :=
  db.captures.flatMap (fun c =>
    (db.species.filter (fun s => s.id == c.species_id)).map (fun s => (c, s)))

/-- SQL GROUP BY key with COUNT: one pair per distinct key with its
occurrence count.  Group order stands for the implementation-defined
grouping order of the database. -/
def sqlGroupCount (keys : List String) : List (String × Nat) :=
  keys.dedup.map (fun k => (k, keys.count k))

/-- SQL ORDER BY count DESC, as a deterministic stable sort on the count
(ties kept in an implementation-defined but fixed order). -/
def sortByCountDesc (rows : List (String × Nat)) : List (String × Nat) :=
  rows.insertionSort (fun a b => b.2 ≤ a.2)

/-- api_top_species before the LIMIT clause: group the joined captures of
species flagged neither legendary nor mythical by species id and rank by
count descending. -/
def api_top_species_full (db : DB) : List (String × Nat) :=
  let joined := (joinSpecies db).filter (fun r => !r.2.is_legendary && !r.2.is_mythical)
  sortByCountDesc (sqlGroupCount (joined.map (fun r => r.1.species_id)))

/-- api_top_species with its LIMIT clause. -/
def api_top_species (db : DB) (limit : Nat) : List (String × Nat) :=
  (api_top_species_full db).take limit

/-- The api_summary result record. -/
structure Summary where
  total_captures : Nat
  total_shiny : Nat
  total_legendaries : Nat
  total_mythicals : Nat
  deriving DecidableEq

/-- api_summary: counts over all captures, the legendary and mythical counts
through the join to the species flags. -/
def api_summary (db : DB) : Summary :=
  { total_captures := db.captures.length
    total_shiny := (db.captures.filter (fun c => c.is_shiny)).length
    total_legendaries := ((joinSpecies db).filter (fun r => r.2.is_legendary)).length
    total_mythicals := ((joinSpecies db).filter (fun r => r.2.is_mythical)).length }

/-- The api_species_detail result record. -/
structure SpeciesDetail where
  species : String
  total : Nat
  shiny : Nat
  top_players : List (String × Nat)
  deriving DecidableEq

/-- api_species_detail: totals over the captures of the given species id,
and the per-player ranking limited to 10, anonymized. -/
def api_species_detail (db : DB) (species_id : String) : SpeciesDetail :=
  let caps := db.captures.filter (fun c => c.species_id == species_id)
  { species := species_id
    total := caps.length
    shiny := (caps.filter (fun c => c.is_shiny)).length
    top_players := ((sortByCountDesc (sqlGroupCount (caps.map (fun c => c.player_id)))).take 10).map
      (fun r => (anonymize_uuid r.1, r.2)) }

/-! ## Auxiliary notions for the invariants -/

/-- Maximum of a list of timestamps, none when the list is empty. -/
def maxOfTs : List Int → Option Int
  | [] => none
  | t :: ts => some (ts.foldl max t)

/-- The timestamps of the committed captures of one player. -/
def playerCaptureTs (db : DB) (pid : String) : List Int :=
  (db.captures.filter (fun c => c.player_id == pid)).map (fun c => c.timestamp)

/-- The store invariant maintained by the ingestion pipeline: primary keys
are unique, captures reference existing rows, species flags agree with the
classification tables, and each player row records the maximum capture
timestamp over its (at least one) captures. -/
def DBInv (db : DB) : Prop :=
  (db.players.map PlayerRow.id).Nodup ∧
  (db.species.map SpeciesRow.id).Nodup ∧
  (∀ c ∈ db.captures, c.player_id ∈ db.players.map PlayerRow.id) ∧
  (∀ c ∈ db.captures, c.species_id ∈ db.species.map SpeciesRow.id) ∧
  (∀ s ∈ db.species,
    s.is_legendary = LEGENDARIES.contains s.id ∧ s.is_mythical = MYTHICALS.contains s.id) ∧
  (∀ p ∈ db.players,
    p.last_seen_timestamp = maxOfTs (playerCaptureTs db p.id) ∧ playerCaptureTs db p.id ≠ [])

/-! ## Concrete inputs used by the witnesses and counterexamples -/

/-- The spec scenario: legacy file with one shiny geodude record for u1. -/
def scenarioFS : LogFolderFS :=
  ⟨some ⟨SrcFile.good [("u1", [⟨some "geodude", some true, some 100⟩])], []⟩⟩

/-- The store produced by the scenario rebuild. -/
def scenarioDB : DB := ((update_database_from_logs scenarioFS emptyDB).toOption).getD emptyDB

/-- Case and prefix variants of one species, arriving through both paths. -/
def variantFS : LogFolderFS :=
  ⟨some ⟨SrcFile.good [("u1", [⟨some "geodude", none, some 100⟩])],
    [⟨true, SrcFile.good [⟨some "u2", some 200, some "COBBLEMON:geodude", none⟩]⟩]⟩⟩

/-- The store produced by the variant rebuild. -/
def variantDB : DB := ((update_database_from_logs variantFS emptyDB).toOption).getD emptyDB

/-- A nonempty prior store, used to show rebuild results ignore prior state. -/
def junkDB : DB := ⟨[⟨"stale", some 5⟩], [⟨"ghost", true, false⟩], [⟨7, "stale", "ghost", 5, true⟩], 9⟩

/-! ## Helper lemmas -/

theorem processFolder_skip (db : DB) (fd : FolderEntry)
    (h : fd.is_dir = false ∨ fd.catch_file = SrcFile.absent) : processFolder db fd = db := by
  rcases h with h | h <;> simp [processFolder, h]

theorem foldl_processFolder_skip (entries : List FolderEntry) (db : DB)
    (h : ∀ fd ∈ entries, fd.is_dir = false ∨ fd.catch_file = SrcFile.absent) :
    entries.foldl processFolder db = db := by
  induction entries generalizing db with
  | nil => rfl
  | cons a as ih =>
      rw [List.foldl_cons, processFolder_skip db a (h a (by simp))]
      exact ih db (fun fd hfd => h fd (by simp [hfd]))

theorem update_ignores_prior (fs : LogFolderFS) (a b : DB) :
    update_database_from_logs fs a = update_database_from_logs fs b := rfl

theorem isEmpty_false_of_ne (s : String) (h : s ≠ "") : s.isEmpty = false :=
  Bool.eq_false_iff.mpr (fun hh => h ((String.isEmpty_iff s).mp hh))

theorem init_le_foldl_max (ts : List Int) (t : Int) : t ≤ ts.foldl max t := by
  induction ts generalizing t with
  | nil => simp
  | cons a as ih => exact le_trans (le_max_left t a) (ih (max t a))

theorem mem_le_foldl_max (x : Int) (ts : List Int) (t : Int) (hx : x ∈ ts) :
    x ≤ ts.foldl max t := by
  induction ts generalizing t with
  | nil => cases hx
  | cons a as ih =>
      rcases List.mem_cons.mp hx with h | h
      · subst h
        exact le_trans (le_max_right t x) (init_le_foldl_max as (max t x))
      · exact ih (max t a) h

theorem le_maxOfTs (x : Int) (l : List Int) (m : Int) (hx : x ∈ l) (hm : maxOfTs l = some m) :
    x ≤ m := by
  cases l with
  | nil => cases hx
  | cons t ts =>
      simp only [maxOfTs, Option.some.injEq] at hm
      subst hm
      rcases List.mem_cons.mp hx with h | h
      · subst h; exact init_le_foldl_max ts x
      · exact mem_le_foldl_max x ts t h

theorem maxOfTs_concat (l : List Int) (a : Int) :
    maxOfTs (l ++ [a]) = some ((maxOfTs l).elim a (fun m => max m a)) := by
  cases l with
  | nil => simp [maxOfTs]
  | cons t ts => simp [maxOfTs, List.foldl_append]

theorem bumpLastSeen_id (p : PlayerRow) (ts : Int) : (bumpLastSeen p ts).id = p.id := by
  unfold bumpLastSeen; split <;> rfl

theorem playerCaptureTs_mk (ps : List PlayerRow) (ss : List SpeciesRow)
    (caps : List CaptureRow) (n : Nat) (c : CaptureRow) (pid : String) :
    playerCaptureTs ⟨ps, ss, caps ++ [c], n⟩ pid
      = (caps.filter (fun x => x.player_id == pid)).map (fun x => x.timestamp)
        ++ (if (c.player_id == pid) = true then [c.timestamp] else []) := by
  cases h : (c.player_id == pid) <;> simp [playerCaptureTs, List.filter_append, h]

theorem processRecord_inv (db : DB) (pu sid : String) (ts : Int) (sh : Bool)
    (h : DBInv db) : DBInv (processRecord db pu sid ts sh) := by
  obtain ⟨h1, h2, h3, h4, h5, h6⟩ := h
  -- the new capture row
  set cap : CaptureRow := ⟨db.next_capture_id, pu, sid, ts, sh⟩ with hcap
  -- the updated players table and its properties
  set players2 : List PlayerRow :=
    (if db.players.any (fun p => p.id == pu) then
      db.players.map (fun p => if p.id == pu then bumpLastSeen p ts else p)
    else db.players ++ [⟨pu, some ts⟩]) with hplayers2
  set species2 : List SpeciesRow :=
    (if db.species.any (fun s => s.id == sid) then db.species
     else db.species ++ [⟨sid, LEGENDARIES.contains sid, MYTHICALS.contains sid⟩]) with hspecies2
  have hgoal : processRecord db pu sid ts sh
      = ⟨players2, species2, db.captures ++ [cap], db.next_capture_id + 1⟩ := rfl
  rw [hgoal]
  -- players2 ids: either unchanged or extended by the fresh pu
  have hplayers_ids : players2.map PlayerRow.id = db.players.map PlayerRow.id ∨
      (players2.map PlayerRow.id = db.players.map PlayerRow.id ++ [pu] ∧
        pu ∉ db.players.map PlayerRow.id) := by
    rw [hplayers2]
    by_cases hp : db.players.any (fun p => p.id == pu) = true
    · left
      rw [if_pos hp, List.map_map]
      apply List.map_congr_left
      intro p _
      by_cases hpe : (p.id == pu) = true <;> simp [Function.comp, hpe, bumpLastSeen_id]
    · right
      have hp2 := List.any_eq_false.mp (Bool.eq_false_iff.mpr hp)
      constructor
      · rw [if_neg hp]; simp
      · intro hmem
        obtain ⟨p, hpmem, hpid⟩ := List.mem_map.mp hmem
        exact hp2 p hpmem (beq_iff_eq.mpr hpid)
  have hspecies_ids : species2.map SpeciesRow.id = db.species.map SpeciesRow.id ∨
      (species2.map SpeciesRow.id = db.species.map SpeciesRow.id ++ [sid] ∧
        sid ∉ db.species.map SpeciesRow.id) := by
    rw [hspecies2]
    by_cases hs : db.species.any (fun s => s.id == sid) = true
    · left; rw [if_pos hs]
    · right
      have hs2 := List.any_eq_false.mp (Bool.eq_false_iff.mpr hs)
      refine ⟨by rw [if_neg hs]; simp, fun hmem => ?_⟩
      obtain ⟨s, hsmem, hsid⟩ := List.mem_map.mp hmem
      exact hs2 s hsmem (beq_iff_eq.mpr hsid)
  have hpu_mem : pu ∈ players2.map PlayerRow.id := by
    rw [hplayers2]
    by_cases hp : db.players.any (fun p => p.id == pu) = true
    · rw [if_pos hp, List.map_map]
      obtain ⟨p, hpmem, hpe⟩ := List.any_eq_true.mp hp
      refine List.mem_map.mpr ⟨p, hpmem, ?_⟩
      by_cases hb : (p.id == pu) = true
      · simp [Function.comp, hb, bumpLastSeen_id, beq_iff_eq.mp hb]
      · exact absurd hpe hb
    · rw [if_neg hp]; simp
  have hsid_mem : sid ∈ species2.map SpeciesRow.id := by
    rw [hspecies2]
    by_cases hs : db.species.any (fun s => s.id == sid) = true
    · rw [if_pos hs]
      obtain ⟨s, hsmem, hse⟩ := List.any_eq_true.mp hs
      exact List.mem_map.mpr ⟨s, hsmem, beq_iff_eq.mp hse⟩
    · rw [if_neg hs]; simp
  refine ⟨?_, ?_, ?_, ?_, ?_, ?_⟩
  -- 1: players primary keys stay unique
  · rcases hplayers_ids with hi | ⟨hi, hnot⟩
    · rw [hi]; exact h1
    · rw [hi, List.nodup_append]
      exact ⟨h1, List.nodup_singleton pu, fun a ha hb => by
        rw [List.mem_singleton.mp hb] at ha; exact hnot ha⟩
  -- 2: species primary keys stay unique
  · rcases hspecies_ids with hi | ⟨hi, hnot⟩
    · rw [hi]; exact h2
    · rw [hi, List.nodup_append]
      exact ⟨h2, List.nodup_singleton sid, fun a ha hb => by
        rw [List.mem_singleton.mp hb] at ha; exact hnot ha⟩
  -- 3: captures reference existing players
  · intro c hc
    rcases List.mem_append.mp hc with hcl | hcr
    · have hold := h3 c hcl
      rcases hplayers_ids with hi | ⟨hi, _⟩
      · rw [hi]; exact hold
      · rw [hi]; exact List.mem_append_left _ hold
    · rw [List.mem_singleton.mp hcr]; exact hpu_mem
  -- 4: captures reference existing species
  · intro c hc
    rcases List.mem_append.mp hc with hcl | hcr
    · have hold := h4 c hcl
      rcases hspecies_ids with hi | ⟨hi, _⟩
      · rw [hi]; exact hold
      · rw [hi]; exact List.mem_append_left _ hold
    · rw [List.mem_singleton.mp hcr]; exact hsid_mem
  -- 5: species flags agree with the classification tables
  · intro s hs
    rw [hspecies2] at hs
    by_cases hsx : db.species.any (fun x => x.id == sid) = true
    · rw [if_pos hsx] at hs; exact h5 s hs
    · rw [if_neg hsx] at hs
      rcases List.mem_append.mp hs with hsl | hsr
      · exact h5 s hsl
      · rw [List.mem_singleton.mp hsr]; exact ⟨rfl, rfl⟩
  -- 6: last seen timestamps are the per-player capture maximum
  · intro p2 hp2
    rw [hplayers2] at hp2
    by_cases hp : db.players.any (fun p => p.id == pu) = true
    · rw [if_pos hp] at hp2
      obtain ⟨p, hpmem, hpeq⟩ := List.mem_map.mp hp2
      obtain ⟨hseen, hne⟩ := h6 p hpmem
      by_cases hpe : (p.id == pu) = true
      · -- the bumped player: its capture list gains the new timestamp
        rw [if_pos hpe] at hpeq
        subst hpeq
        have hpid : pu = p.id := (beq_iff_eq.mp hpe).symm
        obtain ⟨t0, ts0, hl⟩ : ∃ t0 ts0, playerCaptureTs db p.id = t0 :: ts0 := by
          cases hx : playerCaptureTs db p.id with
          | nil => exact absurd hx hne
          | cons a as => exact ⟨a, as, rfl⟩
        have hm : maxOfTs (playerCaptureTs db p.id) = some (ts0.foldl max t0) := by
          rw [hl]; rfl
        rw [hm] at hseen
        set m : Int := ts0.foldl max t0 with hmdef
        have hnewlist : playerCaptureTs
            (⟨players2, species2, db.captures ++ [cap], db.next_capture_id + 1⟩ : DB)
            (bumpLastSeen p ts).id = playerCaptureTs db p.id ++ [ts] := by
          rw [bumpLastSeen_id, playerCaptureTs_mk]
          have hb : (cap.player_id == p.id) = true := beq_iff_eq.mpr hpid
          rw [if_pos hb]
          rfl
        rw [hnewlist, maxOfTs_concat, hm]
        constructor
        · show (bumpLastSeen p ts).last_seen_timestamp = some (max m ts)
          unfold bumpLastSeen
          rw [hseen]
          by_cases hgt : ts > (some m).getD 0
          · rw [if_pos hgt]
            simp only [Option.getD_some] at hgt
            rw [max_eq_right (le_of_lt hgt)]
          · rw [if_neg hgt]
            simp only [Option.getD_some, not_lt] at hgt
            rw [max_eq_left hgt]
            exact hseen
        · simp
      · -- an untouched player: its capture list is unchanged
        rw [if_neg hpe] at hpeq
        subst hpeq
        have hpne : (cap.player_id == p.id) = false :=
          Bool.eq_false_iff.mpr (fun hb => hpe (beq_iff_eq.mpr (beq_iff_eq.mp hb).symm))
        have hsame : playerCaptureTs
            (⟨players2, species2, db.captures ++ [cap], db.next_capture_id + 1⟩ : DB) p.id
            = playerCaptureTs db p.id := by
          rw [playerCaptureTs_mk, hpne]
          simp [playerCaptureTs]
        rw [hsame]
        exact h6 p hpmem
    · rw [if_neg hp] at hp2
      have hp3 := List.any_eq_false.mp (Bool.eq_false_iff.mpr hp)
      rcases List.mem_append.mp hp2 with hpl | hpr
      · -- an old player: pu is fresh, so its capture list is unchanged
        have hne2 : (cap.player_id == p2.id) = false := by
          rw [hcap]
          exact Bool.eq_false_iff.mpr (fun hb =>
            hp3 p2 hpl (beq_iff_eq.mpr (beq_iff_eq.mp hb).symm))
        have hsame : playerCaptureTs
            (⟨players2, species2, db.captures ++ [cap], db.next_capture_id + 1⟩ : DB) p2.id
            = playerCaptureTs db p2.id := by
          rw [playerCaptureTs_mk, hne2]
          simp [playerCaptureTs]
        rw [hsame]
        exact h6 p2 hpl
      · -- the freshly created player: exactly one capture, the new one
        rw [List.mem_singleton.mp hpr]
        have hfresh : (db.captures.filter (fun x => x.player_id == pu)) = [] := by
          apply List.filter_eq_nil_iff.mpr
          intro c hc hb
          have : pu ∈ db.players.map PlayerRow.id := beq_iff_eq.mp hb ▸ h3 c hc
          obtain ⟨p, hpmem, hpid⟩ := List.mem_map.mp this
          exact hp3 p hpmem (beq_iff_eq.mpr hpid)
        have hlist : playerCaptureTs
            (⟨players2, species2, db.captures ++ [cap], db.next_capture_id + 1⟩ : DB)
            (⟨pu, some ts⟩ : PlayerRow).id = [ts] := by
          rw [playerCaptureTs_mk]
          have hb : (cap.player_id == (⟨pu, some ts⟩ : PlayerRow).id) = true := by
            rw [hcap]; exact beq_iff_eq.mpr rfl
          rw [if_pos hb, hfresh]
          rfl
        rw [hlist]
        exact ⟨rfl, by simp⟩

theorem foldl_inv {β : Type} (f : DB → β → DB) (hf : ∀ db b, DBInv db → DBInv (f db b)) :
    ∀ (l : List β) (db : DB), DBInv db → DBInv (l.foldl f db) := by
  intro l
  induction l with
  | nil => exact fun db h => h
  | cons a as ih => exact fun db h => ih (f db a) (hf db a h)

theorem processOldRecord_inv (uuid : String) (db : DB) (e : OldRecord) (h : DBInv db) :
    DBInv (processOldRecord uuid db e) := by
  simp only [processOldRecord]
  split
  · exact h
  · exact processRecord_inv _ _ _ _ _ h

theorem processNewRecord_inv (db : DB) (e : NewRecord) (h : DBInv db) :
    DBInv (processNewRecord db e) := by
  simp only [processNewRecord]
  split
  · exact h
  · exact processRecord_inv _ _ _ _ _ h

theorem load_old_json_file_inv (file : SrcFile (List (String × List OldRecord))) (db : DB)
    (h : DBInv db) : DBInv (load_old_json_file file db) := by
  cases file with
  | absent => exact h
  | unparseable => exact h
  | good data =>
      exact foldl_inv _
        (fun acc pr h2 =>
          foldl_inv (processOldRecord pr.1) (fun d e h3 => processOldRecord_inv pr.1 d e h3)
            pr.2 acc h2)
        data db h

theorem processFolder_inv (db : DB) (fd : FolderEntry) (h : DBInv db) :
    DBInv (processFolder db fd) := by
  unfold processFolder
  split
  · split
    · exact h
    · exact h
    · exact foldl_inv processNewRecord (fun d e h3 => processNewRecord_inv d e h3) _ db h
  · exact h

theorem emptyDB_inv : DBInv (⟨[], [], [], 1⟩ : DB) := by
  refine ⟨List.nodup_nil, List.nodup_nil, ?_, ?_, ?_, ?_⟩ <;> intro x hx <;> cases hx

theorem update_inv (fs : LogFolderFS) (prior db : DB)
    (h : update_database_from_logs fs prior = Except.ok db) : DBInv db := by
  obtain ⟨root⟩ := fs
  cases root with
  | none => exact absurd h (by simp [update_database_from_logs, reset_database])
  | some r =>
      have heq : update_database_from_logs ⟨some r⟩ prior
          = Except.ok (r.entries.foldl processFolder
              (load_old_json_file r.old_file ⟨[], [], [], 1⟩)) := rfl
      rw [heq] at h
      injection h with h
      rw [← h]
      exact foldl_inv processFolder (fun d fd hh => processFolder_inv d fd hh) r.entries _
        (load_old_json_file_inv r.old_file _ emptyDB_inv)

/-! ## Claim theorems -/

/-- C3: a rebuild with zero available source files (the legacy aggregate file
missing, and no per-player capture file in any listdir entry) succeeds and
leaves a store with zero Player, Species and Capture rows, and an all-zero
summary, regardless of the prior store contents. -/
theorem reset_correctness (prior : DB) (root : LogRoot)
    (h1 : root.old_file = SrcFile.absent)
    (h2 : ∀ fd ∈ root.entries, fd.is_dir = false ∨ fd.catch_file = SrcFile.absent) :
    ∃ db, update_database_from_logs ⟨some root⟩ prior = Except.ok db ∧
      db.players = [] ∧ db.species = [] ∧ db.captures = [] ∧
      api_summary db = ⟨0, 0, 0, 0⟩ := by
  refine ⟨⟨[], [], [], 1⟩, ?_, rfl, rfl, rfl, rfl⟩
  show Except.ok (root.entries.foldl processFolder
    (load_old_json_file root.old_file ⟨[], [], [], 1⟩)) = _
  rw [h1]
  rw [show load_old_json_file SrcFile.absent ⟨[], [], [], 1⟩ = ⟨[], [], [], 1⟩ from rfl]
  rw [foldl_processFolder_skip root.entries ⟨[], [], [], 1⟩ h2]

/-- Witness for C3 at a concrete root with one non-directory entry and one
directory whose capture file is missing, against a nonempty prior store. -/
theorem reset_correctness_witness :
    ∃ db, update_database_from_logs
        ⟨some ⟨SrcFile.absent, [⟨false, SrcFile.good []⟩, ⟨true, SrcFile.absent⟩]⟩⟩ junkDB
      = Except.ok db ∧
      db.players = [] ∧ db.species = [] ∧ db.captures = [] ∧
      api_summary db = ⟨0, 0, 0, 0⟩ :=
  reset_correctness junkDB
    ⟨SrcFile.absent, [⟨false, SrcFile.good []⟩, ⟨true, SrcFile.absent⟩]⟩ rfl (by decide)

/-- C4: running the rebuild twice against the same unchanged sources gives
identical summary output both times, and the rebuild result is a pure
function of the sources, ignoring the prior store entirely. -/
theorem idempotent_rebuild (fs : LogFolderFS) (prior d1 d2 : DB)
    (h1 : update_database_from_logs fs prior = Except.ok d1)
    (h2 : update_database_from_logs fs d1 = Except.ok d2) :
    api_summary d2 = api_summary d1 ∧
    ∀ other : DB, update_database_from_logs fs other = update_database_from_logs fs prior := by
  rw [update_ignores_prior fs d1 prior, h1] at h2
  cases h2
  exact ⟨rfl, fun other => update_ignores_prior fs other prior⟩

/-- Witness for C4: the scenario rebuild from a nonempty prior store and then
from its own result gives the same summary. -/
theorem idempotent_rebuild_witness :
    api_summary scenarioDB = api_summary scenarioDB ∧
    ∀ other : DB,
      update_database_from_logs scenarioFS other
        = update_database_from_logs scenarioFS junkDB :=
  idempotent_rebuild scenarioFS junkDB scenarioDB scenarioDB rfl rfl

/-- C8 counterexample: when the log-source root path itself is missing,
os.listdir raises and the ingestion run fails with an error instead of
skipping, refuting the claim for that case. -/
theorem missing_root_run_fails :
    update_database_from_logs ⟨none⟩ junkDB = Except.error "FileNotFoundError" := rfl

/-- C8 amended: whenever the log root exists, the run completes normally; a
missing legacy aggregate file and a missing per-player capture file are each
skipped without failing. -/
theorem missing_files_skipped (root : LogRoot) (prior : DB) :
    (∃ db, update_database_from_logs ⟨some root⟩ prior = Except.ok db) ∧
    (update_database_from_logs ⟨some ⟨SrcFile.absent, root.entries⟩⟩ prior
      = Except.ok (root.entries.foldl processFolder ⟨[], [], [], 1⟩)) ∧
    (∀ db : DB, ∀ fd : FolderEntry, fd.catch_file = SrcFile.absent → processFolder db fd = db) :=
  ⟨⟨_, rfl⟩, rfl, fun db fd h => processFolder_skip db fd (Or.inr h)⟩

/-- Witness for C8: a concrete run with the legacy file absent and one folder
whose capture file is absent completes normally. -/
theorem missing_files_skipped_witness :
    update_database_from_logs ⟨some ⟨SrcFile.absent, [⟨true, SrcFile.absent⟩]⟩⟩ junkDB
      = Except.ok ([(⟨true, SrcFile.absent⟩ : FolderEntry)].foldl processFolder ⟨[], [], [], 1⟩) ∧
    processFolder junkDB ⟨true, SrcFile.absent⟩ = junkDB :=
  ⟨(missing_files_skipped ⟨SrcFile.absent, [⟨true, SrcFile.absent⟩]⟩ junkDB).2.1,
   (missing_files_skipped ⟨SrcFile.absent, [⟨true, SrcFile.absent⟩]⟩ junkDB).2.2
     junkDB ⟨true, SrcFile.absent⟩ rfl⟩

/-- C10: species_detail on an identifier matching no capture row returns a
well-formed result echoing the identifier, with zero totals and an empty
player ranking. -/
theorem species_detail_unknown_id (db : DB) (sid : String)
    (h : ∀ c ∈ db.captures, c.species_id ≠ sid) :
    api_species_detail db sid = ⟨sid, 0, 0, []⟩ := by
  have hf : db.captures.filter (fun c => c.species_id == sid) = [] :=
    List.filter_eq_nil_iff.mpr (fun c hc => by simp [h c hc])
  simp [api_species_detail, hf, sqlGroupCount, sortByCountDesc]

/-- Witness for C10 at a store whose only capture is of another species. -/
theorem species_detail_unknown_id_witness :
    api_species_detail junkDB "cobblemon:pikachu" = ⟨"cobblemon:pikachu", 0, 0, []⟩ :=
  species_detail_unknown_id junkDB "cobblemon:pikachu" (by decide)

/-- C7: in both formats, a record missing the player identifier or the
species string is skipped without any row created, and an accepted record is
processed with its player, species, timestamp defaulting to 0 when absent,
and shiny flag defaulting to false when absent. -/
theorem record_extraction_and_skip (db : DB) (uuid : String) (e : OldRecord) (r : NewRecord) :
    (e.pokemon_species = none → processOldRecord uuid db e = db) ∧
    (∀ sid, e.pokemon_species = some sid → sid ≠ "" → uuid ≠ "" →
      processOldRecord uuid db e
        = processRecord db uuid sid (e.captureTimestamp.getD 0) (e.pokemon_shiny.getD false)) ∧
    (r.player = none ∨ r.datas_species = none → processNewRecord db r = db) ∧
    (∀ pu sid, r.player = some pu → pu ≠ "" → r.datas_species = some sid → sid ≠ "" →
      processNewRecord db r
        = processRecord db pu sid (r.timestamp.getD 0) (r.datas_shiny.getD false)) := by
  refine ⟨fun h => ?_, fun sid hs hsne hune => ?_, fun h => ?_, fun pu sid hp hpne hs hsne => ?_⟩
  · simp [processOldRecord, h]
    exact fun hc => absurd hc (by decide)
  · simp [processOldRecord, hs, isEmpty_false_of_ne sid hsne, isEmpty_false_of_ne uuid hune]
  · rcases h with h | h
    · simp [processNewRecord, h]
      exact fun hc => absurd hc (by decide)
    · simp [processNewRecord, h]
      exact fun _ hc => absurd hc (by decide)
  · simp [processNewRecord, hp, hs,
      isEmpty_false_of_ne sid hsne, isEmpty_false_of_ne pu hpne]

/-- Witness for C7: a record lacking a player is skipped, and an accepted
legacy record with no timestamp or shiny field uses the defaults 0, false. -/
theorem record_extraction_and_skip_witness :
    processOldRecord "u1" emptyDB ⟨some "geodude", none, none⟩
      = processRecord emptyDB "u1" "geodude" 0 false ∧
    processNewRecord emptyDB ⟨none, some 5, some "geodude", none⟩ = emptyDB :=
  ⟨(record_extraction_and_skip emptyDB "u1" ⟨some "geodude", none, none⟩
      ⟨none, some 5, some "geodude", none⟩).2.1 "geodude" rfl (by decide) (by decide),
   (record_extraction_and_skip emptyDB "u1" ⟨some "geodude", none, none⟩
      ⟨none, some 5, some "geodude", none⟩).2.2.1 (Or.inl rfl)⟩

/-- C6: after every completed rebuild, each Player row's last_seen_timestamp
equals the maximum of the timestamps of its committed captures, and is an
upper bound of all of them — for all source records including ones with
zero, absent, or negative timestamps (the statement quantifies over every
filesystem, hence over every record content). -/
theorem last_seen_eq_max (fs : LogFolderFS) (prior db : DB)
    (h : update_database_from_logs fs prior = Except.ok db) :
    ∀ p ∈ db.players,
      p.last_seen_timestamp = maxOfTs (playerCaptureTs db p.id) ∧
      ∀ c ∈ db.captures, c.player_id = p.id →
        ∃ m, p.last_seen_timestamp = some m ∧ c.timestamp ≤ m := by
  obtain ⟨-, -, -, -, -, h6⟩ := update_inv fs prior db h
  intro p hp
  obtain ⟨heq, hne⟩ := h6 p hp
  refine ⟨heq, fun c hc hcp => ?_⟩
  obtain ⟨m, hm⟩ : ∃ m, maxOfTs (playerCaptureTs db p.id) = some m := by
    cases hl : playerCaptureTs db p.id with
    | nil => exact absurd hl hne
    | cons t ts => exact ⟨ts.foldl max t, rfl⟩
  refine ⟨m, by rw [heq, hm], le_maxOfTs c.timestamp _ m ?_ hm⟩
  exact List.mem_map.mpr ⟨c, List.mem_filter.mpr ⟨hc, beq_iff_eq.mpr hcp⟩, rfl⟩

/-- Witness for C6 at the concrete scenario rebuild, at its single player
row and single capture row. -/
theorem last_seen_eq_max_witness :
    (⟨"u1", some 100⟩ : PlayerRow).last_seen_timestamp
      = maxOfTs (playerCaptureTs scenarioDB (⟨"u1", some 100⟩ : PlayerRow).id) ∧
    ∃ m, (⟨"u1", some 100⟩ : PlayerRow).last_seen_timestamp = some m ∧
      (⟨1, "u1", "geodude", 100, true⟩ : CaptureRow).timestamp ≤ m := by
  have h := last_seen_eq_max scenarioFS emptyDB scenarioDB rfl ⟨"u1", some 100⟩ (by decide)
  exact ⟨h.1, h.2 ⟨1, "u1", "geodude", 100, true⟩ (by decide) rfl⟩

theorem legendary_mythical_disjoint :
    ∀ x ∈ LEGENDARIES, x ∉ MYTHICALS := by decide

theorem filter_id_singleton (l : List SpeciesRow) (hnd : (l.map SpeciesRow.id).Nodup)
    (s : SpeciesRow) (hs : s ∈ l) :
    l.filter (fun x => x.id == s.id) = [s] := by
  induction l with
  | nil => cases hs
  | cons a rest ih =>
      rw [List.map_cons, List.nodup_cons] at hnd
      obtain ⟨hna, hnd⟩ := hnd
      rcases List.mem_cons.mp hs with h | h
      · subst h
        have hrest : rest.filter (fun x => x.id == s.id) = [] := by
          apply List.filter_eq_nil_iff.mpr
          intro x hx hb
          exact hna (List.mem_map.mpr ⟨x, hx, beq_iff_eq.mp hb⟩)
        simp [List.filter_cons, hrest]
      · have hane : (a.id == s.id) = false := Bool.eq_false_iff.mpr (fun hb =>
          hna (List.mem_map.mpr ⟨s, h, (beq_iff_eq.mp hb).symm⟩))
        simp only [List.filter_cons, hane, if_false, Bool.false_eq_true]
        exact ih hnd h

theorem join_partition (db : DB) (hinv : DBInv db) :
    ((joinSpecies db).filter (fun r => !r.2.is_legendary && !r.2.is_mythical)).length
      + ((joinSpecies db).filter (fun r => r.2.is_legendary)).length
      + ((joinSpecies db).filter (fun r => r.2.is_mythical)).length
      = db.captures.length := by
  obtain ⟨-, h2, -, h4, h5, -⟩ := hinv
  unfold joinSpecies
  rw [List.filter_flatMap, List.filter_flatMap, List.filter_flatMap,
    List.length_flatMap, List.length_flatMap, List.length_flatMap]
  simp only [Function.comp_def]
  have key : ∀ caps : List CaptureRow,
      (∀ c ∈ caps, c.species_id ∈ db.species.map SpeciesRow.id) →
      (caps.map (fun c =>
          (List.filter (fun r => !r.2.is_legendary && !r.2.is_mythical)
            ((db.species.filter (fun s => s.id == c.species_id)).map (fun s => (c, s)))).length)).sum
        + (caps.map (fun c =>
            (List.filter (fun r => r.2.is_legendary)
              ((db.species.filter (fun s => s.id == c.species_id)).map (fun s => (c, s)))).length)).sum
        + (caps.map (fun c =>
            (List.filter (fun r => r.2.is_mythical)
              ((db.species.filter (fun s => s.id == c.species_id)).map (fun s => (c, s)))).length)).sum
        = caps.length := by
    intro caps
    induction caps with
    | nil => intro _; rfl
    | cons c cs ih =>
        intro hmem
        obtain ⟨s, hsmem, hsid⟩ := List.mem_map.mp (hmem c (List.mem_cons_self c cs))
        have hone : db.species.filter (fun x => x.id == c.species_id) = [s] := by
          rw [← hsid]
          exact filter_id_singleton db.species h2 s hsmem
        have hrest := ih (fun x hx => hmem x (List.mem_cons_of_mem c hx))
        have hflags := h5 s hsmem
        have hdisj : ¬(s.is_legendary = true ∧ s.is_mythical = true) := by
          rintro ⟨hl, hm⟩
          rw [hflags.1] at hl
          rw [hflags.2] at hm
          exact legendary_mythical_disjoint s.id (List.mem_of_elem_eq_true hl)
            (List.mem_of_elem_eq_true hm)
        have hA : (List.filter (fun r : CaptureRow × SpeciesRow =>
              !r.2.is_legendary && !r.2.is_mythical) [(c, s)]).length
            + (List.filter (fun r : CaptureRow × SpeciesRow => r.2.is_legendary) [(c, s)]).length
            + (List.filter (fun r : CaptureRow × SpeciesRow => r.2.is_mythical) [(c, s)]).length
            = 1 := by
          cases hl : s.is_legendary with
          | true =>
              have hm : s.is_mythical = false := by
                cases hm : s.is_mythical
                · rfl
                · exact absurd ⟨hl, hm⟩ hdisj
              simp [List.filter_cons, hl, hm]
          | false => cases hm : s.is_mythical <;> simp [List.filter_cons, hl, hm]
        simp only [List.map_cons, List.map_nil, List.sum_cons, List.length_cons, hone]
        omega
  exact key db.captures h4

/-- C5: over any rebuilt store, the summed counts of top_species taken with
no effective limit, plus the legendary capture total, plus the mythical
capture total, equal the total capture count: legendary, mythical and other
species partition all capture rows, the two classification tables being
disjoint. -/
theorem partition_law (fs : LogFolderFS) (prior db : DB)
    (h : update_database_from_logs fs prior = Except.ok db)
    (limit : Nat) (hl : (api_top_species_full db).length ≤ limit) :
    ((api_top_species db limit).map Prod.snd).sum
      + (api_summary db).total_legendaries + (api_summary db).total_mythicals
      = (api_summary db).total_captures := by
  have hinv := update_inv fs prior db h
  have h1 : ((api_top_species db limit).map Prod.snd).sum
      = ((joinSpecies db).filter (fun r => !r.2.is_legendary && !r.2.is_mythical)).length := by
    unfold api_top_species
    rw [List.take_of_length_le hl]
    unfold api_top_species_full sortByCountDesc
    rw [List.Perm.sum_eq (List.Perm.map Prod.snd
      (List.perm_insertionSort (fun a b : String × Nat => b.2 ≤ a.2) (sqlGroupCount _)))]
    unfold sqlGroupCount
    rw [List.map_map]
    simp only [Function.comp_def]
    rw [List.sum_map_count_dedup_eq_length, List.length_map]
  rw [h1]
  show _ + ((joinSpecies db).filter _).length + ((joinSpecies db).filter _).length
      = db.captures.length
  exact join_partition db hinv

/-- Witness for C5 at the concrete scenario rebuild with the default limit. -/
theorem partition_law_witness :
    ((api_top_species scenarioDB 50).map Prod.snd).sum
      + (api_summary scenarioDB).total_legendaries + (api_summary scenarioDB).total_mythicals
      = (api_summary scenarioDB).total_captures :=
  partition_law scenarioFS emptyDB scenarioDB rfl 50 (by decide)

/-- C9: anonymize_uuid is a total deterministic function of the raw
identifier: it equals the SHA-256 hexdigest of the identifier truncated to
its first four characters, upper-cased, inside the constant template
Player #XXXX; the digest always has 64 hex characters and the label always
has exactly 12 characters. -/
theorem anonymize_uuid_spec (s t : String) :
    anonymize_uuid s = "Player #" ++ ((sha256_hexdigest s).take 4).toUpper ∧
    (s = t → anonymize_uuid s = anonymize_uuid t) ∧
    (sha256_hexdigest s).length = 64 ∧
    (anonymize_uuid s).length = 12 := by
  have hd : (sha256_hexdigest s).length = 64 := by
    show (hex8 _ ++ hex8 _ ++ hex8 _ ++ hex8 _ ++ hex8 _ ++ hex8 _ ++ hex8 _ ++ hex8 _).length
      = 64
    simp [List.length_append, hex8]
  refine ⟨rfl, fun h => by rw [h], hd, ?_⟩
  show ("Player #" ++ ((sha256_hexdigest s).take 4).toUpper).length = 12
  rw [String.length_append]
  have h4 : ((sha256_hexdigest s).take 4).toUpper.length = 4 := by
    unfold String.toUpper
    rw [String.map_eq, String.take_eq]
    show (List.map Char.toUpper (List.take 4 (sha256_hexdigest s).data)).length = 4
    rw [List.length_map, List.length_take, String.length_data, hd]
    rfl
  rw [h4]
  rfl

/-- Witness for C9 at the identifier u1. -/
theorem anonymize_uuid_spec_witness :
    anonymize_uuid "u1" = "Player #" ++ ((sha256_hexdigest "u1").take 4).toUpper ∧
    anonymize_uuid "u1" = anonymize_uuid "u1" ∧
    (anonymize_uuid "u1").length = 12 :=
  ⟨(anonymize_uuid_spec "u1" "u1").1, (anonymize_uuid_spec "u1" "u1").2.1 rfl,
   (anonymize_uuid_spec "u1" "u1").2.2.2⟩

/-- C1 (code behavior at the failing input): case and prefix variants of one
species, ingested through the legacy path and the per-player folder path, end
up as two distinct Species rows with distinct keys, and species_detail on
the variants disagrees on species_key and totals instead of merging them. -/
theorem species_variants_not_merged :
    variantDB.species.map SpeciesRow.id = ["geodude", "COBBLEMON:geodude"] ∧
    (api_species_detail variantDB "geodude").species
      ≠ (api_species_detail variantDB "COBBLEMON:geodude").species ∧
    (api_species_detail variantDB "geodude").total = 1 ∧
    (api_species_detail variantDB "COBBLEMON:geodude").total = 1 ∧
    (api_species_detail variantDB "cobblemon:geodude").total = 0 :=
  ⟨rfl, by decide, rfl, rfl, rfl⟩

/-- C2 (code behavior at the scenario input): the legacy single-record
scenario yields the claimed summary, but species_detail returns the raw key
geodude rather than the normalized cobblemon:geodude the claim requires, and
the normalized key matches nothing. -/
theorem legacy_scenario_unnormalized_key :
    api_summary scenarioDB = ⟨1, 1, 0, 0⟩ ∧
    api_species_detail scenarioDB "geodude" = ⟨"geodude", 1, 1, [(anonymize_uuid "u1", 1)]⟩ ∧
    (api_species_detail scenarioDB "geodude").species ≠ "cobblemon:geodude" ∧
    (api_species_detail scenarioDB "cobblemon:geodude").total = 0 :=
  ⟨rfl, rfl, by decide, rfl⟩

end Tropimon
